import Mathlib

/-
Verification development for the backend streaming session layer of the
repository (src/backend/main.py).  The Python functions are shallowly
embedded as executable Lean definitions; theorems below settle the frozen
claims about them.
-/

namespace GPTBackend

/-
Association-list model of a Python dict with string keys.  Keys are unique
in a dict, so: lookup returns the first binding, assignment replaces the
binding in place (or appends, preserving insertion order), and deletion
removes the binding of that key.
-/

def assocFind {β : Type} (id : String) : List (String × β) → Option β
  | [] => Option.none
  | (k, v) :: rest => if k = id then Option.some v else assocFind id rest

def assocSet {β : Type} (id : String) (v : β) : List (String × β) → List (String × β)
  | [] => [(id, v)]
  | (k, w) :: rest => if k = id then (id, v) :: rest else (k, w) :: assocSet id v rest

def assocErase {β : Type} (id : String) : List (String × β) → List (String × β)
  | [] => []
  | (k, w) :: rest => if k = id then assocErase id rest else (k, w) :: assocErase id rest

theorem assocFind_assocSet_self {β : Type} (id : String) (v : β) :
    ∀ (l : List (String × β)), assocFind id (assocSet id v l) = Option.some v := by
  intro l
  induction l with
  | nil => simp [assocSet, assocFind]
  | cons p rest ih =>
      obtain ⟨k, w⟩ := p
      by_cases hk : k = id
      · simp [assocSet, assocFind, hk]
      · simp [assocSet, assocFind, hk, ih]

theorem assocFind_assocSet_ne {β : Type} (s id : String) (v : β) (hs : s ≠ id) :
    ∀ (l : List (String × β)), assocFind s (assocSet id v l) = assocFind s l := by
  intro l
  induction l with
  | nil => simp [assocSet, assocFind, Ne.symm hs]
  | cons p rest ih =>
      obtain ⟨k, w⟩ := p
      by_cases hk : k = id
      · subst hk
        simp [assocSet, assocFind, Ne.symm hs]
      · simp [assocSet, assocFind, hk, ih]

theorem assocFind_assocErase_self {β : Type} (id : String) :
    ∀ (l : List (String × β)), assocFind id (assocErase id l) = Option.none := by
  intro l
  induction l with
  | nil => simp [assocErase, assocFind]
  | cons p rest ih =>
      obtain ⟨k, w⟩ := p
      by_cases hk : k = id
      · simp [assocErase, hk, ih]
      · simp [assocErase, assocFind, hk, ih]

theorem assocFind_assocErase_ne {β : Type} (s id : String) (hs : s ≠ id) :
    ∀ (l : List (String × β)), assocFind s (assocErase id l) = assocFind s l := by
  intro l
  induction l with
  | nil => simp [assocErase]
  | cons p rest ih =>
      obtain ⟨k, w⟩ := p
      by_cases hk : k = id
      · subst hk
        simp [assocErase, assocFind, Ne.symm hs, ih]
      · simp [assocErase, assocFind, hk, ih]

namespace StreamGen

/-
Embedding of stream_generator (src/backend/main.py lines 662-714).

A chunk of the upstream stream is modelled by the text of
chunk.choices[0].delta.content (the empty list models a falsy, i.e. empty
or absent, delta content) together with chunk.choices[0].finish_reason.
-/

inductive FinishReason where
  | noReason
  | stop
  | lengthCut
  deriving DecidableEq, Repr

structure Chunk where
  content : List Char
  finish : FinishReason
  deriving DecidableEq, Repr

structure GenState where
  buffer : List Char
  firstMessageBuffering : Bool
  deriving DecidableEq, Repr

/- Python str.rstrip strips trailing whitespace. -/
def pyIsSpace (c : Char) : Bool :=
  c == ' ' || c == '\t' || c == '\n' || c == '\r' || c == '\x0b' || c == '\x0c'

def rstrip (l : List Char) : List Char :=
  (l.reverse.dropWhile pyIsSpace).reverse

/- buffer.rstrip().endswith((".", "!", "?", "\n")) from line 703. -/
def endsWithPunct (l : List Char) : Bool :=
  match l.getLast? with
  | Option.some c => c == '.' || c == '!' || c == '?' || c == '\n'
  | Option.none => false

/-
One iteration of the loop body of stream_generator for one chunk (lines
669-705).  Returns the new state, an optional yielded frame, and whether
the loop breaks after this chunk.
-/
def stepChunk (minBufferLen : Nat) (s : GenState) (c : Chunk) :
    GenState × Option (List Char) × Bool :=
  -- line 669: if chunk and chunk.choices and chunk.choices[0].delta.content:
  if c.content = [] then (s, Option.none, false)
  -- line 671 appends the content: below, s.buffer ++ c.content is the
  -- value of the Python local buffer after that line.
  -- lines 676-682: finish_reason == "length": yield buffer, reset, break
  else if c.finish = FinishReason.lengthCut then
    (⟨[], s.firstMessageBuffering⟩, Option.some (s.buffer ++ c.content), true)
  -- lines 685-691: finish_reason == "stop": yield buffer, reset, break
  else if c.finish = FinishReason.stop then
    (⟨[], false⟩, Option.some (s.buffer ++ c.content), true)
  -- line 694: dead branch (finish_reason "stop" was already handled above)
  else if s.firstMessageBuffering ∧ c.finish = FinishReason.stop then
    (⟨[], false⟩, Option.some (s.buffer ++ c.content), false)
  -- lines 698-700: first message keeps buffering
  else if s.firstMessageBuffering then
    (⟨s.buffer ++ c.content, s.firstMessageBuffering⟩, Option.none, false)
  -- lines 701-705: later messages flush on length threshold or punctuation
  else if minBufferLen ≤ (s.buffer ++ c.content).length ∨
      endsWithPunct (rstrip (s.buffer ++ c.content)) then
    (⟨[], s.firstMessageBuffering⟩, Option.some (s.buffer ++ c.content), false)
  else
    (⟨s.buffer ++ c.content, s.firstMessageBuffering⟩, Option.none, false)

/-
The async-for loop of lines 666-705.  stopSet i models the value of
stop_event.is_set() observed at the check (line 667) preceding chunk i.
-/
def runLoop (minBufferLen : Nat) (stopSet : Nat → Bool) :
    GenState → Nat → List Chunk → GenState × List (List Char)
  | s, _, [] => (s, [])
  | s, i, c :: rest =>
    if stopSet i then (s, [])
    else
      match stepChunk minBufferLen s c with
      | (s1, out, true) => (s1, out.toList)
      | (s1, out, false) =>
        let r := runLoop minBufferLen stopSet s1 (i + 1) rest
        (r.1, out.toList ++ r.2)

/-
stream_generator from an arbitrary starting state, including the final
flush of lines 707-709 (yield any remaining content after the loop ends).
-/
def streamGeneratorFrom (minBufferLen : Nat) (stopSet : Nat → Bool)
    (s : GenState) (chunks : List Chunk) : List (List Char) :=
  let r := runLoop minBufferLen stopSet s 0 chunks
  r.2 ++ (if r.1.buffer = [] then [] else [r.1.buffer])

/- stream_generator proper: buffer = "", first_message_buffering = True. -/
def stream_generator (chunks : List Chunk) (stopSet : Nat → Bool)
    (minBufferLen : Nat) : List (List Char) :=
  streamGeneratorFrom minBufferLen stopSet ⟨[], true⟩ chunks

/- Concrete inputs used by scenario parts of the claims. -/

def seventeenA : Chunk := ⟨List.replicate 17 'a', FinishReason.noReason⟩

def hiThere : List Char := ['H', 'i', ' ', 't', 'h', 'e', 'r', 'e', '.']

/-
Helper: from a state with first_message_buffering = True, one step either
emits nothing, does not break and stays in first-message buffering, or
emits exactly one frame, breaks, and leaves an empty buffer.
-/
theorem stepChunk_first_cases (minBufferLen : Nat) (s : GenState) (c : Chunk)
    (h : s.firstMessageBuffering = true) :
    ((stepChunk minBufferLen s c).2.1 = Option.none ∧
      (stepChunk minBufferLen s c).2.2 = false ∧
      (stepChunk minBufferLen s c).1.firstMessageBuffering = true) ∨
    ((stepChunk minBufferLen s c).2.1.toList.length = 1 ∧
      (stepChunk minBufferLen s c).2.2 = true ∧
      (stepChunk minBufferLen s c).1.buffer = []) := by
  obtain ⟨cc, cf⟩ := c
  cases cf <;> by_cases hc : cc = ([] : List Char) <;> simp_all [stepChunk]

/-
Helper: starting in first-message buffering, the loop of stream_generator
either yields nothing and stays in first-message buffering, or yields
exactly one frame and ends with an empty buffer.
-/
theorem runLoop_first_cases (minBufferLen : Nat) (stopSet : Nat → Bool) :
    ∀ (chunks : List Chunk) (s : GenState) (i : Nat), s.firstMessageBuffering = true →
      (((runLoop minBufferLen stopSet s i chunks).2 = [] ∧
        (runLoop minBufferLen stopSet s i chunks).1.firstMessageBuffering = true) ∨
       ((runLoop minBufferLen stopSet s i chunks).2.length = 1 ∧
        (runLoop minBufferLen stopSet s i chunks).1.buffer = [])) := by
  intro chunks
  induction chunks with
  | nil => intro s i h; exact Or.inl ⟨rfl, h⟩
  | cons c rest ih =>
      intro s i h
      by_cases hs : stopSet i
      · exact Or.inl (by simp [runLoop, hs, h])
      · rcases hstep : stepChunk minBufferLen s c with ⟨s1, out, brk⟩
        have hcases := stepChunk_first_cases minBufferLen s c h
        rw [hstep] at hcases
        dsimp only at hcases
        cases brk with
        | true =>
            rcases hcases with ⟨h1, h2, h3⟩ | ⟨h1, h2, h3⟩
            · exact absurd h2 (by simp)
            · refine Or.inr ⟨?_, ?_⟩
              · simp [runLoop, hs, hstep, h1]
              · simp [runLoop, hs, hstep, h3]
        | false =>
            rcases hcases with ⟨h1, h2, h3⟩ | ⟨h1, h2, h3⟩
            · have hrec := ih s1 (i + 1) h3
              rcases hrec with ⟨g1, g2⟩ | ⟨g1, g2⟩
              · exact Or.inl (by simp [runLoop, hs, hstep, h1, g1, g2])
              · exact Or.inr (by simp [runLoop, hs, hstep, h1, g1, g2])
            · exact absurd h2 (by simp)

/-- Claim C9: for every input token stream, stop-signal behavior, and threshold
value, a single invocation of stream_generator emits at most one output frame
in total: every in-loop frame emission breaks the loop with an empty buffer,
so no invocation ever yields two or more frames. -/
theorem stream_generator_at_most_one_frame (chunks : List Chunk) (stopSet : Nat → Bool)
    (minBufferLen : Nat) :
    (stream_generator chunks stopSet minBufferLen).length ≤ 1 := by
  have h := runLoop_first_cases minBufferLen stopSet chunks ⟨[], true⟩ 0 rfl
  rcases h with ⟨h1, _⟩ | ⟨h1, h2⟩
  · simp only [stream_generator, streamGeneratorFrom, h1]
    split <;> simp
  · simp [stream_generator, streamGeneratorFrom, h1, h2]

/-- Claim C10: a token fragment whose delta text is empty or absent is ignored
entirely by stream_generator, even when it carries a terminal finish_reason:
no append, no flush, no state change, and the consumption loop is not
terminated by it. -/
theorem empty_delta_chunk_ignored (minBufferLen : Nat) (s : GenState) (fr : FinishReason)
    (stopSet : Nat → Bool) (i : Nat) (rest : List Chunk) :
    stepChunk minBufferLen s ⟨[], fr⟩ = (s, Option.none, false) ∧
    runLoop minBufferLen stopSet s i (⟨[], fr⟩ :: rest) =
      (if stopSet i then (s, []) else runLoop minBufferLen stopSet s (i + 1) rest) := by
  constructor
  · simp [stepChunk]
  · by_cases h : stopSet i <;> simp [runLoop, stepChunk, h]

/-- Claim C3 counterexample: in the initial first-message state, a fragment
carrying finish_reason "length" (not "stop") does produce a flush, refuting
the claim that a flush happens only for finish_reason "stop". -/
theorem first_message_length_flush_cex :
    (stepChunk 50 ⟨[], true⟩ ⟨['x'], FinishReason.lengthCut⟩).2.1 = Option.some ['x'] ∧
    Chunk.finish ⟨['x'], FinishReason.lengthCut⟩ ≠ FinishReason.stop ∧
    stream_generator [⟨['x'], FinishReason.lengthCut⟩] (fun _ => false) 50 = [['x']] := by
  refine ⟨by decide, by decide, by decide⟩

/-- Claim C3 (amended): in the FIRST_MESSAGE state, processing a fragment with
non-empty delta text produces a flush if and only if the fragment carries a
terminal marker ("stop" or "length"); fragments with no terminal marker keep
buffering regardless of accumulated length and never flush; a terminal-marker
flush emits the entire accumulated text as exactly one frame, resets the
buffer, and terminates the consumption loop. -/
theorem first_message_flush_iff_terminal (minBufferLen : Nat) (b : List Char) (c : Chunk)
    (hc : c.content ≠ []) :
    ((stepChunk minBufferLen ⟨b, true⟩ c).2.1.isSome ↔ c.finish ≠ FinishReason.noReason) ∧
    (c.finish = FinishReason.noReason →
      stepChunk minBufferLen ⟨b, true⟩ c = (⟨b ++ c.content, true⟩, Option.none, false)) ∧
    (c.finish ≠ FinishReason.noReason →
      (stepChunk minBufferLen ⟨b, true⟩ c).2.1 = Option.some (b ++ c.content) ∧
      (stepChunk minBufferLen ⟨b, true⟩ c).1.buffer = [] ∧
      (stepChunk minBufferLen ⟨b, true⟩ c).2.2 = true) := by
  obtain ⟨cc, cf⟩ := c
  cases cf <;> simp_all [stepChunk]

theorem first_message_flush_iff_terminal_witness :
    ((['a'] : List Char) ≠ []) ∧
    (((stepChunk 50 ⟨[], true⟩ ⟨['a'], FinishReason.stop⟩).2.1.isSome ↔
        FinishReason.stop ≠ FinishReason.noReason) ∧
     (FinishReason.stop = FinishReason.noReason →
        stepChunk 50 ⟨[], true⟩ ⟨['a'], FinishReason.stop⟩ =
          (⟨[] ++ ['a'], true⟩, Option.none, false)) ∧
     (FinishReason.stop ≠ FinishReason.noReason →
        (stepChunk 50 ⟨[], true⟩ ⟨['a'], FinishReason.stop⟩).2.1 =
          Option.some ([] ++ ['a']) ∧
        (stepChunk 50 ⟨[], true⟩ ⟨['a'], FinishReason.stop⟩).1.buffer = [] ∧
        (stepChunk 50 ⟨[], true⟩ ⟨['a'], FinishReason.stop⟩).2.2 = true)) :=
  ⟨by decide, first_message_flush_iff_terminal 50 [] ⟨['a'], FinishReason.stop⟩ (by decide)⟩

/-
Helper: in the streaming state (first_message_buffering = False), a fragment
with non-empty content and no terminal marker reduces to the threshold-or-
punctuation conditional of lines 701-705.
-/
theorem stepChunk_streaming (minBufferLen : Nat) (b : List Char) (c : Chunk)
    (hc : c.content ≠ []) (hf : c.finish = FinishReason.noReason) :
    stepChunk minBufferLen ⟨b, false⟩ c =
      if minBufferLen ≤ (b ++ c.content).length ∨
          endsWithPunct (rstrip (b ++ c.content)) = true
      then (⟨[], false⟩, Option.some (b ++ c.content), false)
      else (⟨b ++ c.content, false⟩, Option.none, false) := by
  unfold stepChunk
  rw [if_neg hc, if_neg (by simp [hf]), if_neg (by simp [hf]),
    if_neg (by simp), if_neg (by simp)]

/-- Claim C2: once the buffer state machine is in the streaming state (after
first-message buffering is over), a fragment with no terminal marker flushes
exactly when the accumulated length reaches the 50-character threshold or the
right-trimmed accumulated text ends with ".", "!", "?" or a newline; feeding
51 non-punctuation characters across three fragments from that state produces
exactly one frame holding all 51 characters and resets the buffer, and a
9-character buffer ending in a period flushes immediately. -/
theorem streaming_flush_threshold_or_punct (b : List Char) (c : Chunk)
    (hc : c.content ≠ []) (hf : c.finish = FinishReason.noReason) :
    ((stepChunk 50 ⟨b, false⟩ c).2.1.isSome ↔
      (50 ≤ (b ++ c.content).length ∨ endsWithPunct (rstrip (b ++ c.content)) = true)) ∧
    ((50 ≤ (b ++ c.content).length ∨ endsWithPunct (rstrip (b ++ c.content)) = true →
      stepChunk 50 ⟨b, false⟩ c = (⟨[], false⟩, Option.some (b ++ c.content), false)) ∧
     (¬ (50 ≤ (b ++ c.content).length ∨ endsWithPunct (rstrip (b ++ c.content)) = true) →
      stepChunk 50 ⟨b, false⟩ c = (⟨b ++ c.content, false⟩, Option.none, false))) ∧
    streamGeneratorFrom 50 (fun _ => false) ⟨[], false⟩ [seventeenA, seventeenA, seventeenA] =
      [List.replicate 51 'a'] ∧
    (runLoop 50 (fun _ => false) ⟨[], false⟩ 0 [seventeenA, seventeenA, seventeenA]).1.buffer
      = [] ∧
    stepChunk 50 ⟨[], false⟩ ⟨hiThere, FinishReason.noReason⟩ =
      (⟨[], false⟩, Option.some hiThere, false) ∧
    hiThere.length < 50 := by
  refine ⟨?_, ⟨?_, ?_⟩, by decide, by decide, by decide, by decide⟩
  · rw [stepChunk_streaming 50 b c hc hf]
    by_cases hcond : 50 ≤ (b ++ c.content).length ∨
        endsWithPunct (rstrip (b ++ c.content)) = true
    · rw [if_pos hcond]
      simpa using hcond
    · rw [if_neg hcond]
      simpa using hcond
  · intro hcond
    rw [stepChunk_streaming 50 b c hc hf, if_pos hcond]
  · intro hcond
    rw [stepChunk_streaming 50 b c hc hf, if_neg hcond]

theorem streaming_flush_threshold_or_punct_witness :
    ((['a'] : List Char) ≠ []) ∧
    Chunk.finish ⟨['a'], FinishReason.noReason⟩ = FinishReason.noReason ∧
    (((stepChunk 50 ⟨[], false⟩ ⟨['a'], FinishReason.noReason⟩).2.1.isSome ↔
      (50 ≤ ([] ++ ['a'] : List Char).length ∨
        endsWithPunct (rstrip ([] ++ ['a'])) = true)) ∧
    ((50 ≤ ([] ++ ['a'] : List Char).length ∨ endsWithPunct (rstrip ([] ++ ['a'])) = true →
      stepChunk 50 ⟨[], false⟩ ⟨['a'], FinishReason.noReason⟩ =
        (⟨[], false⟩, Option.some ([] ++ ['a']), false)) ∧
     (¬ (50 ≤ ([] ++ ['a'] : List Char).length ∨
          endsWithPunct (rstrip ([] ++ ['a'])) = true) →
      stepChunk 50 ⟨[], false⟩ ⟨['a'], FinishReason.noReason⟩ =
        (⟨[] ++ ['a'], false⟩, Option.none, false))) ∧
    streamGeneratorFrom 50 (fun _ => false) ⟨[], false⟩ [seventeenA, seventeenA, seventeenA] =
      [List.replicate 51 'a'] ∧
    (runLoop 50 (fun _ => false) ⟨[], false⟩ 0 [seventeenA, seventeenA, seventeenA]).1.buffer
      = [] ∧
    stepChunk 50 ⟨[], false⟩ ⟨hiThere, FinishReason.noReason⟩ =
      (⟨[], false⟩, Option.some hiThere, false) ∧
    hiThere.length < 50) :=
  ⟨by decide, rfl,
    streaming_flush_threshold_or_punct [] ⟨['a'], FinishReason.noReason⟩ (by decide) rfl⟩

/-- Claim C4 counterexample: the stop signal becomes set after the first
fragment, while the buffer holds the unflushed text "ab"; the generator then
emits that buffered text as a final frame (lines 707-709) instead of
discarding it, so its output is not empty. -/
theorem stop_discards_buffer_cex :
    stream_generator
        [⟨['a', 'b'], FinishReason.noReason⟩, ⟨['c', 'd'], FinishReason.noReason⟩]
        (fun i => decide (1 ≤ i)) 50 = [['a', 'b']] ∧
    ([['a', 'b']] : List (List Char)) ≠ [] := by
  refine ⟨by decide, by decide⟩

/-- Claim C4 (amended): if the stop signal is observed set while the buffer
holds non-empty unflushed text, the generator terminates by emitting that
buffered text as exactly one final frame (it is flushed, not discarded). -/
theorem stop_signal_flushes_pending_buffer (minBufferLen : Nat) (stopSet : Nat → Bool)
    (s : GenState) (chunks : List Chunk) (hstop : stopSet 0 = true) (hb : s.buffer ≠ []) :
    streamGeneratorFrom minBufferLen stopSet s chunks = [s.buffer] := by
  cases chunks with
  | nil => simp [streamGeneratorFrom, runLoop, hb]
  | cons c rest => simp [streamGeneratorFrom, runLoop, hstop, hb]

theorem stop_signal_flushes_pending_buffer_witness :
    ((fun _ : Nat => true) 0 = true) ∧ (GenState.buffer ⟨['a'], false⟩ ≠ []) ∧
    streamGeneratorFrom 50 (fun _ => true) ⟨['a'], false⟩
      [⟨['b'], FinishReason.noReason⟩] = [['a']] :=
  ⟨rfl, by decide,
    stop_signal_flushes_pending_buffer 50 (fun _ => true) ⟨['a'], false⟩
      [⟨['b'], FinishReason.noReason⟩] rfl (by decide)⟩

end StreamGen

namespace Registry

/-
Embedding of the per-session generation-task bookkeeping of
ConnectionManager (src/backend/main.py): stream_tasks (line 496), the
single-flight replacement block of websocket_endpoint (lines 794-805), the
await of line 808, and disconnect_cleanup (lines 532-542).

The pool lists every generation task ever created, in creation order; a
task records its session and whether it has terminated (done covers normal
completion, error and cancellation: task.cancel() followed by await always
leaves the task done).  streamTasks models the stream_tasks dict, mapping a
client id to the pool index of its recorded task.
-/

structure GenTask where
  session : String
  done : Bool
  deriving DecidableEq, Repr

structure TaskRegistry where
  pool : List GenTask
  streamTasks : List (String × Nat)
  deriving DecidableEq, Repr

/- Terminate the task at a pool index (cancel-and-await, or completion). -/
def markDone : List GenTask → Nat → List GenTask
  | [], _ => []
  | t :: rest, 0 => ⟨t.session, true⟩ :: rest
  | t :: rest, i + 1 => t :: markDone rest i

/-
Lines 795-805: under the manager lock, if the session has a recorded task
that is not done, cancel it and await its completion; then record a fresh
running task for the session.  markDone is idempotent on a done task, which
matches the "if not old_task.done()" guard.
-/
def newGeneration (r : TaskRegistry) (id : String) : TaskRegistry :=
  match assocFind id r.streamTasks with
  | Option.some i =>
      ⟨markDone r.pool i ++ [⟨id, false⟩],
        assocSet id (markDone r.pool i).length r.streamTasks⟩
  | Option.none =>
      ⟨r.pool ++ [⟨id, false⟩], assocSet id r.pool.length r.streamTasks⟩

/- Line 808: await manager.stream_tasks[client_id]; the task terminates. -/
def awaitTask (r : TaskRegistry) (id : String) : TaskRegistry :=
  match assocFind id r.streamTasks with
  | Option.some i => ⟨markDone r.pool i, r.streamTasks⟩
  | Option.none => r

/-
Lines 532-542: cancel and await the recorded task, then delete the
stream_tasks entry of the session.
-/
def disconnectCleanup (r : TaskRegistry) (id : String) : TaskRegistry :=
  match assocFind id r.streamTasks with
  | Option.some i => ⟨markDone r.pool i, assocErase id r.streamTasks⟩
  | Option.none => ⟨r.pool, assocErase id r.streamTasks⟩

/- A running task may also terminate on its own at any point. -/
def taskFinished (r : TaskRegistry) (i : Nat) : TaskRegistry :=
  ⟨markDone r.pool i, r.streamTasks⟩

/-
The mutation steps are serialized by manager._lock, so a history of the
registry is a sequence of these atomic events.
-/
inductive Event where
  | newGeneration (id : String)
  | awaitTask (id : String)
  | disconnectCleanup (id : String)
  | taskFinished (i : Nat)

def applyEvent (r : TaskRegistry) : Event → TaskRegistry
  | Event.newGeneration id => newGeneration r id
  | Event.awaitTask id => awaitTask r id
  | Event.disconnectCleanup id => disconnectCleanup r id
  | Event.taskFinished i => taskFinished r i

def initRegistry : TaskRegistry := ⟨[], []⟩

def runEvents (es : List Event) : TaskRegistry := es.foldl applyEvent initRegistry

theorem markDone_length : ∀ (p : List GenTask) (i : Nat), (markDone p i).length = p.length := by
  intro p
  induction p with
  | nil => intro i; rfl
  | cons t rest ih =>
      intro i
      cases i with
      | zero => rfl
      | succ i => simpa [markDone] using ih i

theorem markDone_get?_other : ∀ (p : List GenTask) (i j : Nat), i ≠ j →
    (markDone p i).get? j = p.get? j := by
  intro p
  induction p with
  | nil => intro i j _; simp [markDone]
  | cons t rest ih =>
      intro i j hij
      cases i with
      | zero =>
          cases j with
          | zero => exact absurd rfl hij
          | succ j => simp [markDone]
      | succ i =>
          cases j with
          | zero => simp [markDone]
          | succ j => simpa [markDone] using ih i j (fun h => hij (by rw [h]))

theorem markDone_get?_self : ∀ (p : List GenTask) (i : Nat) (t : GenTask),
    p.get? i = Option.some t → (markDone p i).get? i = Option.some ⟨t.session, true⟩ := by
  intro p
  induction p with
  | nil => intro i t h; simp at h
  | cons u rest ih =>
      intro i t h
      cases i with
      | zero => simp_all [markDone]
      | succ i => simpa [markDone] using ih i t (by simpa using h)

theorem markDone_get?_none : ∀ (p : List GenTask) (i : Nat),
    p.get? i = Option.none → (markDone p i).get? i = Option.none := by
  intro p
  induction p with
  | nil => intro i _; simp [markDone]
  | cons u rest ih =>
      intro i h
      cases i with
      | zero => simp at h
      | succ i => simpa [markDone] using ih i (by simpa using h)

theorem markDone_get?_running (p : List GenTask) (i j : Nat) (t : GenTask)
    (hg : (markDone p i).get? j = Option.some t) (hr : t.done = false) :
    p.get? j = Option.some t ∧ i ≠ j := by
  by_cases hij : i = j
  · subst hij
    cases hu : p.get? i with
    | none =>
        rw [markDone_get?_none p i hu] at hg
        exact absurd hg (by simp)
    | some u =>
        rw [markDone_get?_self p i u hu] at hg
        obtain rfl := Option.some.inj hg
        simp at hr
  · exact ⟨by rw [← markDone_get?_other p i j hij]; exact hg, hij⟩

/-
Invariant: every running task in the pool is the task currently recorded
in stream_tasks for its session.
-/
def RunningRecorded (r : TaskRegistry) : Prop :=
  ∀ i t, r.pool.get? i = Option.some t → t.done = false →
    assocFind t.session r.streamTasks = Option.some i

theorem runningRecorded_newGeneration (r : TaskRegistry) (id : String)
    (hr : RunningRecorded r) : RunningRecorded (newGeneration r id) := by
  intro j t hg hd
  cases hfind : assocFind id r.streamTasks with
  | none =>
      simp only [newGeneration, hfind] at hg ⊢
      rcases Nat.lt_trichotomy j r.pool.length with hj | hj | hj
      · rw [List.get?_append hj] at hg
        have h2 := hr j t hg hd
        by_cases hsid : t.session = id
        · rw [hsid, hfind] at h2
          exact absurd h2 (by simp)
        · rw [assocFind_assocSet_ne t.session id _ hsid]
          exact h2
      · subst hj
        rw [List.get?_append_right (Nat.le_refl _)] at hg
        simp at hg
        obtain rfl := hg.symm
        rw [assocFind_assocSet_self]
      · rw [List.get?_append_right (Nat.le_of_lt hj)] at hg
        have : j - r.pool.length ≠ 0 := by omega
        cases hk : j - r.pool.length with
        | zero => exact absurd hk this
        | succ k => rw [hk] at hg; simp at hg
  | some i =>
      simp only [newGeneration, hfind] at hg ⊢
      rcases Nat.lt_trichotomy j (markDone r.pool i).length with hj | hj | hj
      · rw [List.get?_append hj] at hg
        obtain ⟨hg2, hij⟩ := markDone_get?_running r.pool i j t hg hd
        have h2 := hr j t hg2 hd
        by_cases hsid : t.session = id
        · rw [hsid, hfind] at h2
          exact absurd (Option.some.inj h2) hij
        · rw [assocFind_assocSet_ne t.session id _ hsid]
          exact h2
      · subst hj
        rw [List.get?_append_right (Nat.le_refl _)] at hg
        simp at hg
        obtain rfl := hg.symm
        rw [assocFind_assocSet_self]
      · rw [List.get?_append_right (Nat.le_of_lt hj)] at hg
        have : j - (markDone r.pool i).length ≠ 0 := by omega
        cases hk : j - (markDone r.pool i).length with
        | zero => exact absurd hk this
        | succ k => rw [hk] at hg; simp at hg

theorem runningRecorded_awaitTask (r : TaskRegistry) (id : String)
    (hr : RunningRecorded r) : RunningRecorded (awaitTask r id) := by
  intro j t hg hd
  cases hfind : assocFind id r.streamTasks with
  | none =>
      simp only [awaitTask, hfind] at hg ⊢
      exact hr j t hg hd
  | some i =>
      simp only [awaitTask, hfind] at hg ⊢
      obtain ⟨hg2, _⟩ := markDone_get?_running r.pool i j t hg hd
      exact hr j t hg2 hd

theorem runningRecorded_disconnectCleanup (r : TaskRegistry) (id : String)
    (hr : RunningRecorded r) : RunningRecorded (disconnectCleanup r id) := by
  intro j t hg hd
  cases hfind : assocFind id r.streamTasks with
  | none =>
      simp only [disconnectCleanup, hfind] at hg ⊢
      have h2 := hr j t hg hd
      by_cases hsid : t.session = id
      · rw [hsid, hfind] at h2
        exact absurd h2 (by simp)
      · rw [assocFind_assocErase_ne t.session id hsid]
        exact h2
  | some i =>
      simp only [disconnectCleanup, hfind] at hg ⊢
      obtain ⟨hg2, hij⟩ := markDone_get?_running r.pool i j t hg hd
      have h2 := hr j t hg2 hd
      by_cases hsid : t.session = id
      · rw [hsid, hfind] at h2
        exact absurd (Option.some.inj h2) hij
      · rw [assocFind_assocErase_ne t.session id hsid]
        exact h2

theorem runningRecorded_taskFinished (r : TaskRegistry) (i : Nat)
    (hr : RunningRecorded r) : RunningRecorded (taskFinished r i) := by
  intro j t hg hd
  simp only [taskFinished] at hg ⊢
  obtain ⟨hg2, _⟩ := markDone_get?_running r.pool i j t hg hd
  exact hr j t hg2 hd

theorem runningRecorded_runEvents (es : List Event) : RunningRecorded (runEvents es) := by
  suffices h : ∀ (es2 : List Event) (r : TaskRegistry), RunningRecorded r →
      RunningRecorded (es2.foldl applyEvent r) by
    refine h es initRegistry ?_
    intro i t hg hd
    simp [initRegistry] at hg
  intro es2
  induction es2 with
  | nil => intro r hr; exact hr
  | cons e rest ih =>
      intro r hr
      refine ih (applyEvent r e) ?_
      cases e with
      | newGeneration id => exact runningRecorded_newGeneration r id hr
      | awaitTask id => exact runningRecorded_awaitTask r id hr
      | disconnectCleanup id => exact runningRecorded_disconnectCleanup r id hr
      | taskFinished i => exact runningRecorded_taskFinished r i hr

def isRunningFor (id : String) (t : GenTask) : Bool :=
  decide (t.session = id) && !t.done

/- Number of in-flight generation tasks recorded for a session. -/
def runningFor (id : String) (r : TaskRegistry) : Nat :=
  (r.pool.filter (isRunningFor id)).length

theorem filter_length_le_one {α : Type} (p : α → Bool) :
    ∀ (l : List α), (∀ i j a b, l.get? i = Option.some a → l.get? j = Option.some b →
      p a = true → p b = true → i = j) → (l.filter p).length ≤ 1 := by
  intro l
  induction l with
  | nil => intro _; simp
  | cons x rest ih =>
      intro h
      by_cases hx : p x = true
      · have hrest : rest.filter p = [] := by
          rw [List.filter_eq_nil]
          intro a ha hpa
          obtain ⟨k, hk⟩ := List.get?_of_mem ha
          have := h 0 (k + 1) x a (by simp) (by simpa using hk) hx hpa
          omega
        simp [List.filter_cons, hx, hrest]
      · have h2 : ∀ i j a b, rest.get? i = Option.some a → rest.get? j = Option.some b →
            p a = true → p b = true → i = j := by
          intro i j a b hi hj hpa hpb
          have := h (i + 1) (j + 1) a b (by simpa using hi) (by simpa using hj) hpa hpb
          omega
        have h3 := ih h2
        simpa [List.filter_cons, hx] using h3

theorem runningFor_le_one_of_inv (r : TaskRegistry) (hr : RunningRecorded r) (id : String) :
    runningFor id r ≤ 1 := by
  unfold runningFor
  apply filter_length_le_one
  intro i j a b hi hj hpa hpb
  have hpa2 : a.session = id ∧ a.done = false := by
    simpa [isRunningFor] using hpa
  have hpb2 : b.session = id ∧ b.done = false := by
    simpa [isRunningFor] using hpb
  have h1 := hr i a hi hpa2.2
  have h2 := hr j b hj hpb2.2
  rw [hpa2.1] at h1
  rw [hpb2.1] at h2
  rw [h1] at h2
  exact Option.some.inj h2

/-- Claim C5: in every state reachable by any sequence of lock-serialized
registry events, at most one generation task per session is in flight; and
the replacement step of lines 794-808 marks the previously recorded,
not-yet-done task of the session as terminated (cancelled and awaited)
before the new task is stored at a fresh slot, so two generations for the
same session never run concurrently. -/
theorem single_flight_per_session :
    (∀ (es : List Event) (id : String), runningFor id (runEvents es) ≤ 1) ∧
    (∀ (r : TaskRegistry) (id : String) (i : Nat) (t : GenTask),
      assocFind id r.streamTasks = Option.some i → i < r.pool.length →
      (newGeneration r id).pool.get? i = Option.some t → t.done = true) := by
  constructor
  · intro es id
    exact runningFor_le_one_of_inv (runEvents es) (runningRecorded_runEvents es) id
  · intro r id i t hfind hlen hget
    simp only [newGeneration, hfind] at hget
    rw [List.get?_append (by rw [markDone_length]; exact hlen)] at hget
    cases hu : r.pool.get? i with
    | none =>
        rw [markDone_get?_none r.pool i hu] at hget
        exact absurd hget (by simp)
    | some u =>
        rw [markDone_get?_self r.pool i u hu] at hget
        obtain rfl := Option.some.inj hget
        rfl

theorem single_flight_per_session_witness :
    runningFor "a" (runEvents [Event.newGeneration "a", Event.newGeneration "a"]) ≤ 1 ∧
    assocFind "a" (TaskRegistry.streamTasks ⟨[⟨"a", false⟩], [("a", 0)]⟩) = Option.some 0 ∧
    0 < (TaskRegistry.pool ⟨[⟨"a", false⟩], [("a", 0)]⟩).length ∧
    (newGeneration ⟨[⟨"a", false⟩], [("a", 0)]⟩ "a").pool.get? 0 =
      Option.some ⟨"a", true⟩ ∧
    GenTask.done ⟨"a", true⟩ = true :=
  ⟨single_flight_per_session.1 [Event.newGeneration "a", Event.newGeneration "a"] "a",
   by decide, by decide, by decide,
   single_flight_per_session.2 ⟨[⟨"a", false⟩], [("a", 0)]⟩ "a" 0 ⟨"a", true⟩
     (by decide) (by decide) (by decide)⟩

/-
Embedding of the generation path of websocket_endpoint (lines 772-815)
together with the per-iteration finally of lines 832-837.  The upstream
interaction is abstracted into the termination behavior of the awaited
process_stream task, and the stop flag into a Bool.
-/

inductive StreamResult where
  | completed
  | raisedCancelled
  | raisedError
  deriving DecidableEq, Repr

inductive Outcome where
  | normalCompletion
  | cancelled
  | reportedError
  deriving DecidableEq, Repr

/-
One invocation of the generation path for one session.  Returns the
terminal outcome, whether an error frame was written to the socket, and
the registry after the iteration ends.
-/
def generationPath (r : TaskRegistry) (id : String) (res : StreamResult) (stopSet : Bool) :
    Outcome × Bool × TaskRegistry :=
  -- lines 795-805: single-flight replacement, store the new task
  -- line 808: await the stored task; it terminates with result res
  let r2 := awaitTask (newGeneration r id) id
  -- lines 810-815: a non-cancellation exception is reported as an error
  -- frame unless the stop flag is set; a CancelledError is not caught by
  -- the except Exception handler and reaches the handler of lines 820-822
  let oc : Outcome × Bool :=
    match res with
    | StreamResult.completed => (Outcome.normalCompletion, false)
    | StreamResult.raisedCancelled => (Outcome.cancelled, false)
    | StreamResult.raisedError =>
        if stopSet then (Outcome.normalCompletion, false)
        else (Outcome.reportedError, true)
  -- lines 832-837: the finally block of the loop body runs
  -- manager.disconnect, whose disconnect_cleanup deletes the task handle
  (oc.1, oc.2, disconnectCleanup r2 id)

/-- Claim C6: every invocation of the generation path ends in exactly one
terminal outcome, classified by the termination of the awaited task and the
stop flag (normal completion, cancellation, or reported error), and on exit
the session has no recorded task entry: the stream_tasks handle is cleared. -/
theorem generation_path_outcome_and_handle_cleared (r : TaskRegistry) (id : String)
    (res : StreamResult) (stopSet : Bool) :
    assocFind id (generationPath r id res stopSet).2.2.streamTasks = Option.none ∧
    ((generationPath r id res stopSet).1 = Outcome.cancelled ↔
      res = StreamResult.raisedCancelled) ∧
    ((generationPath r id res stopSet).1 = Outcome.reportedError ↔
      (res = StreamResult.raisedError ∧ stopSet = false)) ∧
    ((generationPath r id res stopSet).1 = Outcome.normalCompletion ↔
      (res = StreamResult.completed ∨ (res = StreamResult.raisedError ∧ stopSet = true))) := by
  refine ⟨?_, ?_, ?_, ?_⟩
  · show assocFind id
      (disconnectCleanup (awaitTask (newGeneration r id) id) id).streamTasks = Option.none
    unfold disconnectCleanup
    cases hf : assocFind id (awaitTask (newGeneration r id) id).streamTasks <;>
      simp [assocFind_assocErase_self]
  · cases res <;> cases stopSet <;> simp [generationPath]
  · cases res <;> cases stopSet <;> simp [generationPath]
  · cases res <;> cases stopSet <;> simp [generationPath]

end Registry

namespace ConnMgr

/-
Embedding of the session registry of ConnectionManager
(src/backend/main.py lines 488-606): active_connections, connection_times
and stop_events keyed by client id, with max_connections and timeout.
active_connections is kept as the insertion-ordered list of registered
client ids.  The stream-task bookkeeping is modelled in the Registry
namespace.
-/

structure ConnState where
  activeConnections : List String
  connectionTimes : List (String × Nat)
  stopEvents : List (String × Bool)
  maxConnections : Nat
  timeout : Nat
  deriving DecidableEq, Repr

def eraseId (id : String) : List String → List String
  | [] => []
  | k :: rest => if k = id then eraseId id rest else k :: eraseId id rest

/-
disconnect_cleanup (lines 532-554) for the registry fields modelled here:
removes the session from every map and closes its socket.
-/
def cmDisconnectCleanup (m : ConnState) (id : String) : ConnState :=
  ⟨eraseId id m.activeConnections, assocErase id m.connectionTimes,
    assocErase id m.stopEvents, m.maxConnections, m.timeout⟩

structure ConnectResult where
  accepted : Bool
  newSocketClosedPolicy : Bool
  state : ConnState
  deriving DecidableEq, Repr

/-
connect (lines 499-530).  newSocketClosedPolicy records whether the
incoming socket was closed with code WS_1008_POLICY_VIOLATION (line 514).
-/
def connect (m : ConnState) (id : String) (now : Nat) : ConnectResult :=
  -- lines 503-509: a session with the same identity is disconnected first
  let m1 := if id ∈ m.activeConnections then cmDisconnectCleanup m id else m
  -- lines 511-515: refuse when the session count is at or above the limit
  if m.maxConnections ≤ m1.activeConnections.length then
    ⟨false, true, m1⟩
  -- lines 517-527: accept, register with the current timestamp and a
  -- fresh (cleared) stop event
  else
    ⟨true, false,
      ⟨m1.activeConnections ++ [id], assocSet id now m1.connectionTimes,
        assocSet id false m1.stopEvents, m1.maxConnections, m1.timeout⟩⟩

def capacityState : ConnState :=
  ⟨["a"], [("a", 0)], [("a", false)], 1, 600⟩

/-- Claim C7 counterexample: with max_connections = 1 and one live session
"a", the number of live sessions is at the limit, yet a connect for the same
identity "a" is accepted (and the new socket is not closed with a policy
code), because the same-identity eviction of lines 503-509 happens before
the capacity check of line 512 — refuting refusal exactly at the limit and
the existing session staying registered. -/
theorem connect_refusal_cex :
    capacityState.maxConnections ≤ capacityState.activeConnections.length ∧
    (connect capacityState "a" 5).accepted = true ∧
    (connect capacityState "a" 5).newSocketClosedPolicy = false ∧
    (connect capacityState "a" 5).state.activeConnections = ["a"] := by
  refine ⟨by decide, by decide, by decide, by decide⟩

/-- Claim C7 (amended): connect refuses a new connection exactly when, after
first evicting any already-registered session with the same identity, the
number of remaining live sessions is at or above max_connections; on refusal
the new socket is closed with a policy-violation code, false is returned and
the registry is left as it stood after that eviction (other sessions remain
registered); below the limit the socket is accepted and registered with the
current timestamp and a fresh cleared stop event. -/
theorem connect_capacity (m : ConnState) (id : String) (now : Nat) :
    ((connect m id now).accepted = false ↔
      m.maxConnections ≤ (if id ∈ m.activeConnections then cmDisconnectCleanup m id
        else m).activeConnections.length) ∧
    ((connect m id now).accepted = false →
      (connect m id now).newSocketClosedPolicy = true ∧
      (connect m id now).state =
        (if id ∈ m.activeConnections then cmDisconnectCleanup m id else m)) ∧
    ((connect m id now).accepted = true →
      (connect m id now).newSocketClosedPolicy = false ∧
      (connect m id now).state.activeConnections =
        (if id ∈ m.activeConnections then cmDisconnectCleanup m id
          else m).activeConnections ++ [id] ∧
      assocFind id (connect m id now).state.connectionTimes = Option.some now ∧
      assocFind id (connect m id now).state.stopEvents = Option.some false) := by
  by_cases hcap : m.maxConnections ≤ (if id ∈ m.activeConnections then cmDisconnectCleanup m id
      else m).activeConnections.length
  · simp [connect, hcap]
  · simp [connect, hcap, assocFind_assocSet_self]

theorem connect_capacity_witness :
    (connect ⟨[], [], [], 1, 600⟩ "a" 3).accepted = true ∧
    assocFind "a" (connect ⟨[], [], [], 1, 600⟩ "a" 3).state.connectionTimes =
      Option.some 3 :=
  ⟨by decide, ((connect_capacity ⟨[], [], [], 1, 600⟩ "a" 3).2.2 (by decide)).2.2.1⟩

/-
The sweep pass of _periodic_cleanup (lines 569-588).  wsDisc id models
ws.client_state == WebSocketState.DISCONNECTED for the session; fails id
models disconnect_cleanup raising an exception for that session (for
example the awaited task re-raising something other than CancelledError),
in which case the raise happens before any bookkeeping was removed.
-/

def isStale (m : ConnState) (now : Nat) (wsDisc : String → Bool) (id : String) : Bool :=
  -- lines 578-582: disconnected socket state, or age above the timeout
  wsDisc id ||
    (match assocFind id m.connectionTimes with
     | Option.some t0 => decide (m.timeout < now - t0)
     | Option.none => false)

/- stale_connections as collected by the loop of lines 577-582. -/
def staleList (m : ConnState) (now : Nat) (wsDisc : String → Bool) : List String :=
  m.activeConnections.filter (isStale m now wsDisc)

/-
The cleanup loop of lines 584-585.  There is no per-session handler: an
exception raised while disconnecting one session propagates out of the
for-loop, so the remaining collected sessions are not processed.  The Bool
records whether the pass finished without an exception.
-/
def cleanupLoop (fails : String → Bool) : ConnState → List String → ConnState × Bool
  | m, [] => (m, true)
  | m, id :: rest =>
      if fails id then (m, false)
      else cleanupLoop fails (cmDisconnectCleanup m id) rest

def sweepCycleBody (m : ConnState) (now : Nat) (wsDisc fails : String → Bool) :
    ConnState × Bool :=
  cleanupLoop fails m (staleList m now wsDisc)

/-
One cycle of the while-loop: the except of lines 587-588 catches any
exception from the cycle body, so the periodic loop always continues.
-/
def periodicCleanupStep (m : ConnState) (now : Nat) (wsDisc fails : String → Bool) :
    ConnState × Bool :=
  ((sweepCycleBody m now wsDisc fails).1, true)

def sweepCexState : ConnState :=
  ⟨["a", "b"], [("a", 0), ("b", 0)], [("a", false), ("b", false)], 100, 10⟩

/-- Claim C8 counterexample: both sessions "a" and "b" are stale in the same
pass; disconnecting "a" fails, and then "b" — stale in that same pass, with
a cleanup that would succeed — is not disconnected: both sessions are still
registered when the pass ends. -/
theorem sweep_failure_cex :
    isStale sweepCexState 100 (fun _ => false) "b" = true ∧
    (fun id => id == "a") "b" = false ∧
    (sweepCycleBody sweepCexState 100 (fun _ => false)
      (fun id => id == "a")).1.activeConnections = ["a", "b"] := by
  refine ⟨by decide, by decide, by decide⟩

theorem cleanupLoop_characterization (fails : String → Bool) :
    ∀ (l : List String) (m : ConnState),
      cleanupLoop fails m l =
        ((l.takeWhile (fun id => !fails id)).foldl cmDisconnectCleanup m,
          l.all (fun id => !fails id)) := by
  intro l
  induction l with
  | nil => intro m; rfl
  | cons id rest ih =>
      intro m
      by_cases hf : fails id
      · simp [cleanupLoop, hf, List.takeWhile_cons, List.all_cons]
      · simp [cleanupLoop, hf, ih, List.takeWhile_cons, List.all_cons]

/-- Claim C8 (amended): within one sweep pass, the sessions identified as
stale are disconnected in order only up to (and excluding) the first one
whose disconnect fails — a failure aborts the remainder of that pass, and
stale sessions after the failing one are left registered until a later
cycle; the pass finishes exception-free exactly when no stale session
fails; the exception is caught at the cycle level, so the periodic sweep
loop itself always continues with its next cycle. -/
theorem sweep_failure_aborts_rest_of_pass (m : ConnState) (now : Nat)
    (wsDisc fails : String → Bool) :
    (sweepCycleBody m now wsDisc fails).1 =
      ((staleList m now wsDisc).takeWhile (fun id => !fails id)).foldl
        cmDisconnectCleanup m ∧
    (sweepCycleBody m now wsDisc fails).2 =
      (staleList m now wsDisc).all (fun id => !fails id) ∧
    (periodicCleanupStep m now wsDisc fails).2 = true := by
  refine ⟨?_, ?_, rfl⟩
  · unfold sweepCycleBody
    rw [cleanupLoop_characterization fails (staleList m now wsDisc) m]
  · unfold sweepCycleBody
    rw [cleanupLoop_characterization fails (staleList m now wsDisc) m]

end ConnMgr

namespace WsLoop

/-
Embedding of the receive loop of websocket_endpoint (src/backend/main.py
lines 726-837).  The decisive structural fact is that the finally block of
lines 832-837 belongs to the try statement that forms the loop body, so
manager.disconnect runs at the end of every iteration — also after the
continue of line 744 that follows an inline malformed-JSON error reply.
-/

inductive OutFrame where
  | invalidJsonError
  | invalidRequestError
  | systemGenerationStopped
  deriving DecidableEq, Repr

inductive InboundMessage where
  | malformed
  | stopCommand
  | invalidRequest
  | generateRequest
  deriving DecidableEq, Repr

structure EndpointState where
  registered : Bool
  socketOpen : Bool
  sent : List OutFrame
  processedGenerations : Nat
  deriving DecidableEq, Repr

/-
manager.disconnect → disconnect_cleanup (lines 532-554): the session is
removed from the registry maps and its socket is closed.
-/
def disconnectSession (st : EndpointState) : EndpointState :=
  ⟨false, false, st.sent, st.processedGenerations⟩

/-
One iteration of the while-loop for the next inbound message.  The Bool is
whether the loop exits.  When the socket is closed, the state check of
line 729 (or the failing receive on a closed socket, caught at lines
817-831) breaks out of the loop.  Otherwise the message is handled:
  - malformed JSON (lines 737-744): inline error text, continue;
  - command stop (lines 746-750): [SYSTEM] reply, continue;
  - schema-invalid request (lines 752-758): inline error text, continue;
  - well-formed request (lines 760-815): the generation path runs.
In every one of these cases the per-iteration finally of lines 832-837
then runs manager.disconnect before the loop continues.
-/
def wsIteration (st : EndpointState) (msg : InboundMessage) : EndpointState × Bool :=
  if st.socketOpen = false then (st, true)
  else
    match msg with
    | InboundMessage.malformed =>
        (disconnectSession ⟨st.registered, st.socketOpen,
          st.sent ++ [OutFrame.invalidJsonError], st.processedGenerations⟩, false)
    | InboundMessage.stopCommand =>
        (disconnectSession ⟨st.registered, st.socketOpen,
          st.sent ++ [OutFrame.systemGenerationStopped], st.processedGenerations⟩, false)
    | InboundMessage.invalidRequest =>
        (disconnectSession ⟨st.registered, st.socketOpen,
          st.sent ++ [OutFrame.invalidRequestError], st.processedGenerations⟩, false)
    | InboundMessage.generateRequest =>
        (disconnectSession ⟨st.registered, st.socketOpen, st.sent,
          st.processedGenerations + 1⟩, false)

def wsLoop (st : EndpointState) : List InboundMessage → EndpointState
  | [] => st
  | msg :: rest =>
      match wsIteration st msg with
      | (st1, true) => st1
      | (st1, false) => wsLoop st1 rest

/- State right after a successful manager.connect for this client. -/
def initialSession : EndpointState := ⟨true, true, [], 0⟩

/-- Claim C1 (code bug evidence): a malformed inbound message does get an
inline error text frame, but the per-iteration finally of lines 832-837
then disconnects the session — the session is unregistered and the socket
closed — so a subsequent well-formed request on the same connection is
never processed (processedGenerations stays 0), although the same
well-formed request on a fresh connection would be processed. -/
theorem malformed_then_valid_request_dropped :
    (wsLoop initialSession
        [InboundMessage.malformed, InboundMessage.generateRequest]).sent
      = [OutFrame.invalidJsonError] ∧
    (wsLoop initialSession [InboundMessage.malformed]).registered = false ∧
    (wsLoop initialSession [InboundMessage.malformed]).socketOpen = false ∧
    (wsLoop initialSession
        [InboundMessage.malformed, InboundMessage.generateRequest]).processedGenerations
      = 0 ∧
    (wsLoop initialSession [InboundMessage.generateRequest]).processedGenerations = 1 := by
  refine ⟨by decide, by decide, by decide, by decide, by decide⟩

end WsLoop

end GPTBackend
